import Mathlib

/-!
Verification of the credential-pool / fallback layer (src/api_manager.py) and
the four-stage note pipeline (src/agents_enhanced.py) of the repository.

Python state is embedded as explicit state passing: the mutable
`GeminiAPIManager` object becomes a structure threaded through the
operations.  The Python dict `retry_count` (read through `.get(key, 0)`)
becomes the total function `retry_count : String → Nat` with default 0, and
the Python set `failed_keys` becomes a duplicate-free list queried by
membership.  The remote generation service is an external collaborator and
is embedded as an oracle returning `Option` (`none` models the Python
exception raised by a failed remote call).
-/

/-- State of `GeminiAPIManager` (src/api_manager.py, lines 11-26). -/
@[ext]
structure GeminiAPIManager where
  api_keys : List String
  current_key_index : Nat
  failed_keys : List String
  retry_count : String → Nat
  max_retries : Nat

/-- The state built by `__init__` once the non-empty check has passed:
`current_key_index = 0`, `failed_keys = set()`, `retry_count = {}`,
`max_retries = 3`. -/
def mkManager (api_keys : List String) : GeminiAPIManager :=
  { api_keys := api_keys, current_key_index := 0, failed_keys := [],
    retry_count := fun _ => 0, max_retries := 3 }

/-- Embedding of `GeminiAPIManager.__init__` (lines 11-26): raises
`ValueError` on a falsy (empty) key list, otherwise produces the initial
state. -/
def initManager (api_keys : List String) : Except String GeminiAPIManager :=
  if api_keys.isEmpty then
    Except.error "Pelo menos uma chave API deve ser fornecida"
  else
    Except.ok (mkManager api_keys)

/-- The list comprehension in `get_next_key` (line 35):
`[key for key in self.api_keys if key not in self.failed_keys]`. -/
def GeminiAPIManager.available_keys (m : GeminiAPIManager) : List String :=
  m.api_keys.filter (fun key => !(m.failed_keys.contains key))

/-- Embedding of `get_next_key` (lines 28-50).  If no key is available, all
quarantine state and retry counters are cleared and selection runs against
the full list; `none` is returned only when `api_keys` itself is empty.
Otherwise the key at `current_key_index % len(available)` is returned and
the cursor advances modulo the available length. -/
def GeminiAPIManager.get_next_key (m : GeminiAPIManager) :
    Option String × GeminiAPIManager :=
  if (m.available_keys).isEmpty then
    let m1 : GeminiAPIManager := { m with failed_keys := [], retry_count := fun _ => 0 }
    if m.api_keys.isEmpty then (none, m1)
    else
      (some (m.api_keys.getD (m1.current_key_index % m.api_keys.length) ""),
        { m1 with current_key_index := (m1.current_key_index + 1) % m.api_keys.length })
  else
    (some (m.available_keys.getD (m.current_key_index % m.available_keys.length) ""),
      { m with current_key_index := (m.current_key_index + 1) % m.available_keys.length })

/-- Embedding of `mark_key_failed` (lines 52-63): increment the key's retry
counter; once the counter reaches `max_retries` the key joins
`failed_keys`. -/
def GeminiAPIManager.mark_key_failed (m : GeminiAPIManager) (api_key : String) :
    GeminiAPIManager :=
  let rc : String → Nat :=
    fun k => if k = api_key then m.retry_count api_key + 1 else m.retry_count k
  if m.max_retries ≤ rc api_key then
    { m with retry_count := rc, failed_keys := m.failed_keys.insert api_key }
  else
    { m with retry_count := rc }

/-- Result record of `get_status` (lines 152-165). -/
structure ManagerStatus where
  total_keys : Nat
  failed_key_count : Nat
  available_key_count : Nat
  current_key_index : Nat
  retry_counts : String → Nat

/-- Embedding of `get_status` (lines 152-165): a pure read of the state; it
returns a record and performs no mutation (its Lean type has no state
output, matching the Python method which only builds a fresh dict). -/
def GeminiAPIManager.get_status (m : GeminiAPIManager) : ManagerStatus :=
  { total_keys := m.api_keys.length,
    failed_key_count := m.failed_keys.length,
    available_key_count := m.api_keys.length - m.failed_keys.length,
    current_key_index := m.current_key_index,
    retry_counts := m.retry_count }

/-- One iteration budget of `generate_content_with_fallback` (lines 111-150).
`oracle attempt key` is the outcome of the remote call of the given attempt
with the given key (`none` models the caught exception).  The `Nat` in the
result counts performed remote attempts.  Python's `if not api_key: break`
treats both `None` and the empty string as "no key available", hence the
explicit `key = ""` case. -/
def gen_loop (oracle : Nat → String → Option String) :
    Nat → Nat → GeminiAPIManager → Option String × Nat × GeminiAPIManager
  | 0, attempts, m => (none, attempts, m)
  | fuel + 1, attempts, m =>
    let r := m.get_next_key
    match r.1 with
    | none => (none, attempts, r.2)
    | some key =>
      if key = "" then (none, attempts, r.2)
      else
        match oracle attempts key with
        | some text => (some text, attempts + 1, r.2)
        | none => gen_loop oracle fuel (attempts + 1) (r.2.mark_key_failed key)

/-- Embedding of `generate_content_with_fallback` (lines 111-150) for an
explicit `max_attempts` (the Python default `None` stands for
`len(self.api_keys)`). -/
def generate_content_with_fallback (m : GeminiAPIManager)
    (oracle : Nat → String → Option String) (max_attempts : Nat) :
    Option String × Nat × GeminiAPIManager :=
  gen_loop oracle max_attempts 0 m

/-- Sequence of `n` consecutive `get_next_key` calls, collecting the
returned keys and threading the state (stops early on `none`). -/
def nextSeq : GeminiAPIManager → Nat → List String × GeminiAPIManager
  | m, 0 => ([], m)
  | m, n + 1 =>
    match m.get_next_key with
    | (some key, m1) =>
      let p := nextSeq m1 n
      (key :: p.1, p.2)
    | (none, m1) => ([], m1)

/-- Pool state after `i` all-failing attempts on a duplicate-free key list
`L` (used to settle the exhaustion claim): the cursor has advanced `i`
times and exactly the first `i` keys carry one recorded failure. -/
def c2State (L : List String) (i : Nat) : GeminiAPIManager :=
  { api_keys := L, current_key_index := i % L.length, failed_keys := [],
    retry_count := fun k => if (L.take i).contains k then 1 else 0,
    max_retries := 3 }

/-- Invariant relating quarantine to the failure counters: every quarantined
key has accumulated at least `max_retries` failures. -/
def poolInv (m : GeminiAPIManager) : Prop :=
  ∀ key, m.failed_keys.contains key = true → m.max_retries ≤ m.retry_count key

/-- Cursor bound that actually holds on the pool: the rotation cursor stays
below `max 1 (len api_keys)` (the configured list, not the currently
available sublist). -/
def cursorInv (m : GeminiAPIManager) : Prop :=
  m.current_key_index < max 1 m.api_keys.length

/-- A fully quarantined single-key pool, used to witness the self-healing
theorem. -/
def exhaustedPool : GeminiAPIManager :=
  { api_keys := ["a"], current_key_index := 0, failed_keys := ["a"],
    retry_count := fun _ => 3, max_retries := 3 }

/-- Pool over `["a", "b"]` after one lookup and three failures of `"a"`:
the lookup advanced the cursor to 1 and the failures quarantined `"a"`. -/
def quarantinedPairPool : GeminiAPIManager :=
  ((((mkManager ["a", "b"]).get_next_key).2.mark_key_failed "a").mark_key_failed
      "a").mark_key_failed "a"

/-- Pool over the duplicated list `["a", "a"]` after three failures of
`"a"`. -/
def duplicatePool : GeminiAPIManager :=
  (((mkManager ["a", "a"]).mark_key_failed "a").mark_key_failed
      "a").mark_key_failed "a"

/-!
Embedding of the text side (src/agents_enhanced.py).  Text is represented as
`List Char`.  `re.sub`/`re.finditer` calls appear in the source with
anchored-match functions returning the matched length at the head of the
scanned suffix; scanning proceeds left to right exactly as Python's regex
engine does for these patterns (each match consumes at least one character,
matches are non-overlapping, and the reversed-removal loop of the source is
observationally the single left-to-right pass that drops every matched
span and collects the matches in forward order).
-/

/-- Python `str.lower()` restricted to ASCII plus the Latin-1 letters that
occur in the source's case-insensitive patterns. -/
def pyLower (c : Char) : Char :=
  if 'A' ≤ c ∧ c ≤ 'Z' then Char.ofNat (c.toNat + 32)
  else if 0xC0 ≤ c.toNat ∧ c.toNat ≤ 0xDE ∧ c.toNat ≠ 0xD7 then Char.ofNat (c.toNat + 32)
  else c

/-- Python regex `\s` / `str.strip()` whitespace. -/
def pyIsSpace (c : Char) : Bool :=
  c == ' ' || c == '\t' || c == '\n' || c == '\r' || c == '\x0b' || c == '\x0c'

/-- Python `str.strip()`. -/
def pyStrip (s : List Char) : List Char :=
  ((s.dropWhile pyIsSpace).reverse.dropWhile pyIsSpace).reverse

/-- Case-insensitive "the pattern literal starts here" test (regex `(?i)`
on a literal). -/
def ciPrefix : List Char → List Char → Bool
  | [], _ => true
  | _ :: _, [] => false
  | p :: ps, c :: cs => (pyLower c == pyLower p) && ciPrefix ps cs

/-- Case-insensitive substring occurrence. -/
def ciContains (pat : List Char) : List Char → Bool
  | [] => ciPrefix pat []
  | c :: rest => ciPrefix pat (c :: rest) || ciContains pat rest

/-- Case-sensitive "starts here" test (Python `str.startswith` and literal
`in`). -/
def csPrefix : List Char → List Char → Bool
  | [], _ => true
  | _ :: _, [] => false
  | p :: ps, c :: cs => (c == p) && csPrefix ps cs

/-- Case-sensitive substring occurrence (Python `pat in s`). -/
def csContains (pat : List Char) : List Char → Bool
  | [] => csPrefix pat []
  | c :: rest => csPrefix pat (c :: rest) || csContains pat rest

def isDigitChar (c : Char) : Bool := '0' ≤ c && c ≤ '9'

/-- Length of the maximal run of characters satisfying `p` (greedy `\s*`,
`\d*`, `\d+`). -/
def runLength (p : Char → Bool) : List Char → Nat
  | [] => 0
  | c :: rest => if p c then runLength p rest + 1 else 0

/-- Characters consumed by a lazy `.*?` (with `(?s)`) stopped by the
lookahead `(?=\n\n|\Z)`: distance to the first `"\n\n"`, or to the end. -/
def findNN : List Char → Nat
  | '\n' :: '\n' :: _ => 0
  | _ :: rest => 1 + findNN rest
  | [] => 0

/-- Characters consumed by a lazy `.*?(?:\n\n|\Z)` where the `"\n\n"` is
part of the match: up to and including the first `"\n\n"`, or to the end. -/
def lazyToNN : List Char → Nat
  | '\n' :: '\n' :: _ => 2
  | _ :: rest => 1 + lazyToNN rest
  | [] => 0

/-- Characters consumed by a lazy `.*?(?:\n|$)` (no `(?s)`): up to and
including the first newline, or to the end of the string. -/
def lazyToNL : List Char → Nat
  | '\n' :: _ => 1
  | _ :: rest => 1 + lazyToNL rest
  | [] => 0

/-- Anchored match for the block patterns
`(?is)LIT.*?(?=\n\n|\Z)` of `patterns_to_remove` (lines 27-38). -/
def matchBlock (lit : List Char) (s : List Char) : Option Nat :=
  if ciPrefix lit s then some (lit.length + findNN (s.drop lit.length)) else none

/-- Anchored match for `(?i)Página \d+`. -/
def matchPagina (s : List Char) : Option Nat :=
  if ciPrefix ("Página ".toList) s then
    let d := runLength isDigitChar (s.drop 7)
    if d = 0 then none else some (7 + d)
  else none

/-- Anchored match for `(?i)Direitos Autorais © \d{4}`. -/
def matchDireitos (s : List Char) : Option Nat :=
  let lit := "Direitos Autorais © ".toList
  if ciPrefix lit s && 4 ≤ runLength isDigitChar (s.drop lit.length) then
    some (lit.length + 4)
  else none

/-- Generic `re.sub` with a keep-or-delete replacement: scan left to right,
at each position try the anchored matcher; a match is kept verbatim or
deleted according to `keep`, and scanning resumes after it.  The fuel is
the remaining length (every match consumes at least one character, so fuel
equal to the list length is never exhausted). -/
def subScanAux (tryMatch : List Char → Option Nat) (keep : List Char → Bool) :
    Nat → List Char → List Char
  | _, [] => []
  | 0, s => s
  | fuel + 1, c :: rest =>
    match tryMatch (c :: rest) with
    | some n =>
      if 0 < n then
        (if keep ((c :: rest).take n) then (c :: rest).take n else []) ++
          subScanAux tryMatch keep fuel ((c :: rest).drop n)
      else c :: subScanAux tryMatch keep fuel rest
    | none => c :: subScanAux tryMatch keep fuel rest

def subScan (tryMatch : List Char → Option Nat) (keep : List Char → Bool)
    (s : List Char) : List Char :=
  subScanAux tryMatch keep s.length s

/-- Generic `re.finditer` + delete-in-reverse + collect-forward of the
source (lines 47-52 and 67-72): returns the text with every match removed
together with the list of matches in forward order. -/
def scanExtractAux (tryMatch : List Char → Option Nat) :
    Nat → List Char → List Char × List (List Char)
  | _, [] => ([], [])
  | 0, s => (s, [])
  | fuel + 1, c :: rest =>
    match tryMatch (c :: rest) with
    | some n =>
      if 0 < n then
        let p := scanExtractAux tryMatch fuel ((c :: rest).drop n)
        (p.1, (c :: rest).take n :: p.2)
      else
        let p := scanExtractAux tryMatch fuel rest
        (c :: p.1, p.2)
    | none =>
      let p := scanExtractAux tryMatch fuel rest
      (c :: p.1, p.2)

def scanExtract (tryMatch : List Char → Option Nat) (s : List Char) :
    List Char × List (List Char) :=
  scanExtractAux tryMatch s.length s

/-- The replacement lambda of the removal loop (lines 40-43): a matched
section is kept when it textually contains `'Questão'` or `'Gabarito'`
(case-sensitive Python `in`). -/
def keepExamContent (m : List Char) : Bool :=
  csContains ("Questão".toList) m || csContains ("Gabarito".toList) m

/-- Anchored match for the bizu pattern `(?i)(bizu\s*[:!].*?(?:\n|$))`
(line 46). -/
def matchBizu (s : List Char) : Option Nat :=
  if ciPrefix ("bizu".toList) s then
    let after := s.drop 4
    let w := runLength pyIsSpace after
    match (after.drop w).head? with
    | some c =>
      if c == ':' || c == '!' then some (4 + w + 1 + lazyToNL (after.drop (w + 1)))
      else none
    | none => none
  else none

/-- Anchored match for `MARKER\s*[:!]` (the `Gabarito`/`Comentário` heads
inside the question patterns), returning the consumed length. -/
def matchMarkerColon (marker : List Char) (s : List Char) : Option Nat :=
  if ciPrefix marker s then
    let after := s.drop marker.length
    let w := runLength pyIsSpace after
    match (after.drop w).head? with
    | some c =>
      if c == ':' || c == '!' then some (marker.length + w + 1)
      else none
    | none => none
  else none

/-- First (leftmost) anchored match of `p` in `s`: offset and length. -/
def findFirst (p : List Char → Option Nat) : List Char → Option (Nat × Nat)
  | [] =>
    match p [] with
    | some n => some (0, n)
    | none => none
  | c :: rest =>
    match p (c :: rest) with
    | some n => some (0, n)
    | none =>
      match findFirst p rest with
      | some (i, n) => some (i + 1, n)
      | none => none

/-- Anchored match for the head `Questão\s*\d*\s*\(.*?\)` shared by the
question patterns (lines 66 and 147).  Greedy runs stand for `\s*`/`\d*`
with their backtracking left implicit (the claims only rely on inputs where
no `Questão` occurs at all, or where the runs are unambiguous). -/
def matchQuestaoHead (s : List Char) : Option Nat :=
  if ciPrefix ("Questão".toList) s then
    let a := s.drop 7
    let w1 := runLength pyIsSpace a
    let d := runLength isDigitChar (a.drop w1)
    let w2 := runLength pyIsSpace (a.drop (w1 + d))
    let pos := 7 + w1 + d + w2
    match (s.drop pos).head? with
    | some '(' =>
      match findFirst (fun t =>
          match t.head? with
          | some ')' => some 1
          | _ => none) (s.drop (pos + 1)) with
      | some (i, _) => some (pos + 1 + i + 1)
      | none => none
    | _ => none
  else none

/-- Anchored match for the full extraction pattern
`(?is)(Questão\s*\d*\s*\(.*?\).*?(?:Alternativa\s*[A-Z]\).*?)*Gabarito\s*[:!].*?Comentário\s*[:!].*?(?:\n\n|\Z))`
(line 66).  The lazy `.*?` pieces reach for the earliest following marker;
the starred `Alternativa` group matches zero times first and is subsumed by
the lazy gap, which is the preferred expansion of the Python engine. -/
def matchQuestao (s : List Char) : Option Nat :=
  match matchQuestaoHead s with
  | none => none
  | some headLen =>
    match findFirst (matchMarkerColon ("Gabarito".toList)) (s.drop headLen) with
    | none => none
    | some (gOff, gLen) =>
      let afterGab := headLen + gOff + gLen
      match findFirst (matchMarkerColon ("Comentário".toList)) (s.drop afterGab) with
      | none => none
      | some (cOff, cLen) =>
        let afterCom := afterGab + cOff + cLen
        some (afterCom + lazyToNN (s.drop afterCom))

/-- Anchored match for `Alternativa\s*[A-Z]\)` (with `(?i)`, so the letter
class is case-insensitive as well). -/
def matchAlt (s : List Char) : Option Nat :=
  if ciPrefix ("Alternativa".toList) s then
    let after := s.drop 11
    let w := runLength pyIsSpace after
    match (after.drop w).head?, (after.drop (w + 1)).head? with
    | some c, some ')' =>
      if ('a' ≤ pyLower c && pyLower c ≤ 'z') then some (11 + w + 2) else none
    | _, _ => none
  else none

/-- The `re.search` of the manual question fallback (line 147), splitting a
question into body / alternatives / answer key / commentary.  The group
boundaries are the earliest positions where the following component
matches, per the lazy `.*?` gaps of the pattern. -/
def questionPartsSearch (s : List Char) :
    Option (List Char × List Char × List Char × List Char) :=
  match findFirst matchQuestaoHead s with
  | none => none
  | some (q, qLen) =>
    let afterHead := q + qLen
    match findFirst matchAlt (s.drop afterHead) with
    | none => none
    | some (aOff, _) =>
      let altStart := afterHead + aOff
      match findFirst (matchMarkerColon ("Gabarito".toList)) (s.drop altStart) with
      | none => none
      | some (gOff, gLen) =>
        let gabStart := altStart + gOff
        match findFirst (matchMarkerColon ("Comentário".toList))
            (s.drop (gabStart + gLen)) with
        | none => none
        | some (cOff, _) =>
          let comStart := gabStart + gLen + cOff
          some ((s.drop q).take (altStart - q),
                (s.drop altStart).take (gabStart - altStart),
                (s.drop gabStart).take (comStart - gabStart),
                s.drop comStart)

/-- The ordered `patterns_to_remove` list (lines 27-38). -/
def patternsToRemove : List (List Char → Option Nat) :=
  [ matchBlock ("Apresentação do Curso".toList),
    matchBlock ("Sumário".toList),
    matchBlock ("Índice".toList),
    matchBlock ("Conteúdo Introdutório e Administrativo".toList),
    matchBlock ("Material Publicitário".toList),
    matchBlock ("Metadados de Origem".toList),
    matchPagina,
    matchDireitos,
    matchBlock ("Seções de Exercícios".toList),
    matchBlock ("Exercícios Não Comentados/Resolvidos".toList) ]

/-- The boilerplate-removal loop (lines 40-43). -/
def removeBoilerplate (s : List Char) : List Char :=
  patternsToRemove.foldl (fun acc pm => subScan pm keepExamContent acc) s

/-- Python `str.split('\n')`. -/
def splitNL : List Char → List (List Char)
  | [] => [[]]
  | '\n' :: rest => [] :: splitNL rest
  | c :: rest =>
    match splitNL rest with
    | [] => [[c]]
    | l :: ls => (c :: l) :: ls

/-- Join with newlines, Python `'\n'.join`. -/
def joinNL : List (List Char) → List Char
  | [] => []
  | [l] => l
  | l :: ls => l ++ '\n' :: joinNL ls

/-- Python `str.replace(pat, rep)` for a non-empty pattern: replace every
occurrence left to right.  Fuel is the remaining length; each step consumes
at least one character. -/
def replaceSubAux (pat rep : List Char) : Nat → List Char → List Char
  | _, [] => []
  | 0, s => s
  | fuel + 1, c :: rest =>
    if csPrefix pat (c :: rest) ∧ pat ≠ [] then
      rep ++ replaceSubAux pat rep fuel ((c :: rest).drop pat.length)
    else c :: replaceSubAux pat rep fuel rest

def replaceSub (pat rep s : List Char) : List Char :=
  replaceSubAux pat rep s.length s

/-- Output record of the extractor stage (lines 74-78). -/
structure ExtractedData where
  main_content : List Char
  bizus : List (List Char)
  questions : List (List Char)

/-- The AI-bizu merge loop (lines 57-61): each non-blank suggested line not
already present (modulo strip) is appended, prefixed with `"Bizu: "`.  The
membership check reruns against the growing list, as in the source. -/
def mergeAiBizus (bizus : List (List Char)) (ai : List Char) : List (List Char) :=
  if ai ≠ [] ∧ pyStrip ai ≠ [] then
    (splitNL (pyStrip ai)).foldl (fun acc line =>
      let t := pyStrip line
      if t ≠ [] ∧ (acc.map pyStrip).contains t = false then
        acc ++ ["Bizu: ".toList ++ t]
      else acc) bizus
  else bizus

/-- Embedding of `TranscriberExtractorAgent.process` (lines 17-78).
`gen` abstracts `process_with_gemini`, i.e. one
`generate_content_with_fallback` round over the shared pool; `none` is the
`RuntimeError` it raises after exhaustion, which the stage catches. -/
def transcriberExtract (gen : List Char → Option (List Char))
    (content : List Char) : ExtractedData :=
  let processed := removeBoilerplate content
  let pb := scanExtract matchBizu processed
  let processed := pb.1
  let bizus := pb.2.map pyStrip
  let bizus :=
    if 1000 < processed.length then
      match gen
          ("Identifique dicas, macetes ou bizus importantes no seguinte texto. Retorne apenas as dicas encontradas, uma por linha: ".toList
            ++ processed) with
      | some ai => mergeAiBizus bizus ai
      | none => bizus
    else bizus
  let pq := scanExtract matchQuestao processed
  { main_content := pyStrip pq.1,
    bizus := bizus,
    questions := pq.2.map pyStrip }

/-- Output record of the structurer stage (lines 186-189). -/
structure StructuredData where
  structured_content : List Char
  has_math : Bool

/-- One question block of the structurer (lines 132-168): AI formatting, or
on failure the regex fallback split, or the raw question text. -/
def structQuestionBlock (gen : List Char → Option (List Char)) (i : Nat)
    (question_text : List Char) : List Char :=
  match gen ("Formate a seguinte questão em Markdown bem estruturado: ".toList
      ++ question_text) with
  | some formatted =>
    "### Questão ".toList ++ (toString i).toList ++ "\n\n".toList ++ formatted
      ++ "\n\n---\n\n".toList
  | none =>
    match questionPartsSearch question_text with
    | some (qBody, altsRaw, gab, com) =>
      let alts := (splitNL altsRaw).foldl (fun acc line =>
        if pyStrip line ≠ [] then acc ++ ["- [ ] ".toList ++ pyStrip line]
        else acc) []
      "### Questão ".toList ++ (toString i).toList ++ "\n\n".toList
        ++ pyStrip qBody ++ "\n\n".toList
        ++ joinNL alts ++ "\n\n".toList
        ++ "**".toList ++ pyStrip gab ++ "**\n\n".toList
        ++ "**".toList ++ pyStrip com ++ "**\n\n".toList
        ++ "---\n\n".toList
    | none =>
      "### Questão ".toList ++ (toString i).toList ++ "\n\n".toList
        ++ question_text ++ "\n\n---\n\n".toList

/-- Embedding of `StructurerVisualizerAgent.process` (lines 94-189). -/
def structurerProcess (gen : List Char → Option (List Char))
    (e : ExtractedData) : StructuredData :=
  let sc := "# Conteúdo Estruturado\n\n".toList
  let sc :=
    if e.main_content ≠ [] then
      sc ++ "## Conteúdo Principal\n\n".toList ++
        (if 500 < e.main_content.length then
          match gen ("Estruture o seguinte conteúdo em Markdown bem organizado: ".toList
              ++ e.main_content) with
          | some ai => ai ++ "\n\n".toList
          | none => e.main_content ++ "\n\n".toList
        else e.main_content ++ "\n\n".toList)
    else sc
  let sc :=
    if e.bizus ≠ [] then
      sc ++ "## 💡 Bizus e Dicas Importantes\n\n".toList ++
        ((e.bizus.enumFrom 1).foldl (fun acc p =>
          let clean := pyStrip (replaceSub ("bizu:".toList) []
            (replaceSub ("Bizu:".toList) [] p.2))
          acc ++ "> [!TIP] **Bizu ".toList ++ (toString p.1).toList
            ++ ":** ".toList ++ clean ++ "\n\n".toList) [])
    else sc
  let sc :=
    if e.questions ≠ [] then
      sc ++ "## 📝 Questões de Revisão\n\n".toList ++
        ((e.questions.enumFrom 1).foldl (fun acc p =>
          acc ++ structQuestionBlock gen p.1 p.2) [])
    else sc
  let sc :=
    match gen ("Analise o seguinte conteúdo e determine se seria útil adicionar um diagrama Mermaid. ".toList
        ++ e.main_content.take 1000) with
    | some d =>
      if csContains ("mermaid".toList) (d.map pyLower)
          ∧ csContains ("nenhum".toList) (d.map pyLower) = false then
        sc ++ "## 📊 Diagrama Ilustrativo\n\n".toList ++ d ++ "\n\n".toList
      else sc
    | none => sc
  { structured_content := sc,
    has_math :=
      csContains ("$".toList) e.main_content
        || csContains ("fórmula".toList) (e.main_content.map pyLower)
        || csContains ("equação".toList) (e.main_content.map pyLower) }

/-- Output record of the LaTeX stage (lines 231-234). -/
structure LatexData where
  content : List Char
  latex_processed : Bool

/-- The fixed notice appended by the LaTeX stage (line 229). -/
def mathNoticeLine : List Char :=
  "\n> [!NOTE] 🧮 Este conteúdo contém fórmulas matemáticas renderizadas com LaTeX/MathJax.\n\n".toList

/-- Embedding of `LatexExpertAgent.process` (lines 205-234).  The regex
fallback of the except branch (lines 226-227) substitutes every
`$...$` / `$$...$$` match by itself (`r'$\1$'` rebuilds exactly the matched
text), i.e. it is the identity on the content. -/
def latexExpertProcess (gen : List Char → Option (List Char))
    (d : StructuredData) : LatexData :=
  if d.has_math then
    let c :=
      match gen ("Revise e melhore a sintaxe LaTeX no seguinte texto: ".toList
          ++ d.structured_content) with
      | some t => t
      | none => d.structured_content
    { content := c ++ mathNoticeLine, latex_processed := true }
  else
    { content := d.structured_content, latex_processed := false }

/-- The fallback tag block appended by the final formatter (line 276). -/
def fallbackTagBlock : List Char :=
  "\n---\ntags: [matemática, latex, estudo]\n".toList

/-- The metadata header injected by the final formatter (line 280).  The
`time.strftime('%Y-%m-%d')` timestamp is the explicit `date` parameter
(wall-clock reads are outside the embedding). -/
def metadataHeader (date : List Char) : List Char :=
  "---\ncreated: ".toList ++ date
    ++ "\ntags: [processado, multi-agente]\n---\n\n".toList

/-- Embedding of `ObsidianFormatterAgent.process` (lines 250-283). -/
def obsidianFormatterProcess (gen : List Char → Option (List Char))
    (date : List Char) (d : LatexData) : List Char :=
  let final_content :=
    match gen ("Faça uma revisão final desta nota para Obsidian: ".toList
        ++ d.content) with
    | some review => review
    | none =>
      if d.latex_processed ∧ csContains ("tags:".toList) (d.content.map pyLower) = false then
        d.content ++ fallbackTagBlock
      else d.content
  if csPrefix ("---".toList) final_content then final_content
  else metadataHeader date ++ final_content

/-- Embedding of `process_content_with_enhanced_agents` (lines 286-344):
build the manager (which raises on an empty key list), then run the four
stages in order.  All stage-level remote calls go through `gen`, the
abstraction of `process_with_gemini` over the shared pool. -/
def process_content_with_enhanced_agents (gen : List Char → Option (List Char))
    (date : List Char) (raw_content : List Char) (api_keys : List String) :
    Except String (List Char) :=
  match initManager api_keys with
  | Except.error e => Except.error e
  | Except.ok _ =>
    let extracted := transcriberExtract gen raw_content
    let structured := structurerProcess gen extracted
    let latexed := latexExpertProcess gen structured
    Except.ok (obsidianFormatterProcess gen date latexed)

/-- The all-remote-calls-fail oracle. -/
def allFail : List Char → Option (List Char) := fun _ => none

/-! Helper lemmas about the pool. -/

theorem available_keys_no_failed (m : GeminiAPIManager) (hf : m.failed_keys = []) :
    m.available_keys = m.api_keys := by
  unfold GeminiAPIManager.available_keys
  rw [hf]
  exact List.filter_eq_self.mpr (fun a _ => rfl)

/-- With nothing quarantined, `get_next_key` returns the key at the cursor
(modulo the pool size) and only advances the cursor. -/
theorem get_next_key_no_failed (m : GeminiAPIManager) (hf : m.failed_keys = [])
    (hne : m.api_keys ≠ []) :
    m.get_next_key =
      (some (m.api_keys.getD (m.current_key_index % m.api_keys.length) ""),
        { m with current_key_index :=
            (m.current_key_index + 1) % m.api_keys.length }) := by
  have hav : m.available_keys = m.api_keys := available_keys_no_failed m hf
  unfold GeminiAPIManager.get_next_key
  rw [hav, List.isEmpty_eq_false.mpr hne]
  simp

/-- C1: over a non-empty credential list, `get_next_key` never returns
`none`; when the available subset is empty the call performs the full reset
(clears quarantine and counters) and still hands back a configured
credential. -/
theorem get_next_key_self_heals (m : GeminiAPIManager) (h : m.api_keys ≠ []) :
    (∃ key, (m.get_next_key).1 = some key ∧ key ∈ m.api_keys) ∧
    (m.available_keys.isEmpty = true →
      (m.get_next_key).2.failed_keys = [] ∧
      ∀ k, (m.get_next_key).2.retry_count k = 0) := by
  have hlen : 0 < m.api_keys.length := List.length_pos.mpr h
  unfold GeminiAPIManager.get_next_key
  cases he : m.available_keys.isEmpty with
  | true =>
    rw [if_pos rfl, if_neg (by simp [List.isEmpty_eq_false.mpr h])]
    refine ⟨⟨m.api_keys.getD (m.current_key_index % m.api_keys.length) "", rfl, ?_⟩,
      fun _ => ⟨rfl, fun _ => rfl⟩⟩
    rw [List.getD_eq_getElem m.api_keys "" (Nat.mod_lt _ hlen)]
    exact List.getElem_mem (Nat.mod_lt _ hlen)
  | false =>
    have hane : m.available_keys ≠ [] := by
      intro hx
      rw [hx] at he
      simp at he
    have halen : 0 < m.available_keys.length := List.length_pos.mpr hane
    rw [if_neg (by simp [he])]
    refine ⟨⟨m.available_keys.getD (m.current_key_index % m.available_keys.length) "",
      rfl, ?_⟩, fun hx => by simp [he] at hx⟩
    have hm : m.available_keys.getD (m.current_key_index % m.available_keys.length) "" ∈
        m.available_keys := by
      rw [List.getD_eq_getElem m.available_keys "" (Nat.mod_lt _ halen)]
      exact List.getElem_mem (Nat.mod_lt _ halen)
    exact (List.mem_filter.mp hm).1

/-- Witness for C1 at a single-key pool whose only key has been
quarantined: the next lookup resets the pool and returns the key. -/
theorem get_next_key_self_heals_witness :
    (∃ key, (exhaustedPool.get_next_key).1 = some key ∧ key ∈ exhaustedPool.api_keys) ∧
    (exhaustedPool.available_keys.isEmpty = true →
      (exhaustedPool.get_next_key).2.failed_keys = [] ∧
      ∀ k, (exhaustedPool.get_next_key).2.retry_count k = 0) :=
  get_next_key_self_heals exhaustedPool (by decide)

/-- Unfolded form of `mark_key_failed`. -/
theorem mark_key_failed_eq (m : GeminiAPIManager) (key : String) :
    m.mark_key_failed key =
      (if m.max_retries ≤ m.retry_count key + 1 then
        { m with
          retry_count :=
            fun k => if k = key then m.retry_count key + 1 else m.retry_count k,
          failed_keys := m.failed_keys.insert key }
      else
        { m with
          retry_count :=
            fun k => if k = key then m.retry_count key + 1 else m.retry_count k }) := by
  unfold GeminiAPIManager.mark_key_failed
  simp

/-- C4: `mark_key_failed` increments the key's counter by exactly one and
quarantines a fresh key exactly when the incremented counter reaches the
threshold; the invariant `quarantined ⇒ counter ≥ max_retries` holds in the
initial state and is preserved by `mark_key_failed` and `get_next_key`
(including the full reset; `get_status` builds a record without touching
the state, so it preserves every invariant by construction). -/
theorem quarantine_threshold_invariant (m : GeminiAPIManager) (key : String)
    (L : List String) (h : poolInv m) :
    (m.mark_key_failed key).retry_count key = m.retry_count key + 1 ∧
    (m.failed_keys.contains key = false →
      ((m.mark_key_failed key).failed_keys.contains key = true ↔
        m.max_retries ≤ m.retry_count key + 1)) ∧
    (mkManager L).failed_keys = [] ∧ (mkManager L).retry_count key = 0 ∧
    poolInv (mkManager L) ∧
    poolInv (m.mark_key_failed key) ∧
    poolInv (m.get_next_key).2 := by
  refine ⟨?_, ?_, rfl, rfl, ?_, ?_, ?_⟩
  · rw [mark_key_failed_eq]
    by_cases hc : m.max_retries ≤ m.retry_count key + 1 <;> simp [hc]
  · intro hfresh
    rw [mark_key_failed_eq]
    by_cases hc : m.max_retries ≤ m.retry_count key + 1
    · simp only [if_pos hc]
      constructor
      · intro _
        exact hc
      · intro _
        exact List.elem_iff.mpr (List.mem_insert_self key m.failed_keys)
    · simp only [if_neg hc]
      have hf' : key ∉ m.failed_keys := by
        intro hx
        have hx' : m.failed_keys.contains key = true := List.elem_iff.mpr hx
        rw [hx'] at hfresh
        cases hfresh
      exact iff_of_false (by simp [hf']) hc
  · intro k hk
    simp [mkManager] at hk
  · intro k hk
    rw [mark_key_failed_eq] at hk ⊢
    by_cases hc : m.max_retries ≤ m.retry_count key + 1
    · simp only [if_pos hc] at hk ⊢
      by_cases hkk : k = key
      · subst hkk
        simpa using hc
      · simp only [if_neg hkk]
        have hmem : m.failed_keys.contains k = true := by
          have hmem0 := List.elem_iff.mp hk
          rcases List.mem_insert_iff.mp hmem0 with hx | hx
          · exact absurd hx hkk
          · exact List.elem_iff.mpr hx
        exact h k hmem
    · simp only [if_neg hc] at hk ⊢
      by_cases hkk : k = key
      · subst hkk
        simpa using Nat.le_succ_of_le (h k hk)
      · simp only [if_neg hkk]
        exact h k hk
  · unfold GeminiAPIManager.get_next_key
    by_cases he : m.available_keys.isEmpty
    · rw [if_pos he]
      by_cases ha : m.api_keys.isEmpty
      · rw [if_pos ha]
        intro k hk
        simp at hk
      · rw [if_neg ha]
        intro k hk
        simp at hk
    · rw [if_neg he]
      intro k hk
      exact h k hk

/-- Witness for C4 at a concrete pool (one key, nothing quarantined). -/
theorem quarantine_threshold_invariant_witness :
    ((mkManager ["a"]).mark_key_failed "a").retry_count "a" =
        (mkManager ["a"]).retry_count "a" + 1 ∧
    ((mkManager ["a"]).failed_keys.contains "a" = false →
      (((mkManager ["a"]).mark_key_failed "a").failed_keys.contains "a" = true ↔
        (mkManager ["a"]).max_retries ≤ (mkManager ["a"]).retry_count "a" + 1)) ∧
    (mkManager ["b"]).failed_keys = [] ∧ (mkManager ["b"]).retry_count "a" = 0 ∧
    poolInv (mkManager ["b"]) ∧
    poolInv ((mkManager ["a"]).mark_key_failed "a") ∧
    poolInv ((mkManager ["a"]).get_next_key).2 :=
  quarantine_threshold_invariant (mkManager ["a"]) "a" ["b"]
    (fun _ hk => by cases hk)

/-- Counterexample to C6: in the pool over `["a", "b"]`, one lookup moves
the cursor to 1; three failures of `"a"` then shrink the available list to
`["b"]` without touching the cursor, so `cursor < max 1 len(available)`
fails on a state reached purely through pool operations. -/
theorem cursor_available_invariant_cex :
    quarantinedPairPool.available_keys.length = 1 ∧
    quarantinedPairPool.current_key_index = 1 ∧
    ¬(quarantinedPairPool.current_key_index <
        max 1 quarantinedPairPool.available_keys.length) := by
  decide

/-- C6 amended: the cursor bound that the pool maintains is against the
configured list, `0 ≤ cursor < max 1 len(api_keys)`: it holds initially and
is preserved by `get_next_key` and `mark_key_failed` (which never adjusts
the cursor while shrinking the available subset). -/
theorem cursor_bound_invariant (L : List String) (m : GeminiAPIManager)
    (key : String) (h : cursorInv m) :
    cursorInv (mkManager L) ∧
    cursorInv (m.get_next_key).2 ∧
    cursorInv (m.mark_key_failed key) := by
  refine ⟨?_, ?_, ?_⟩
  · have : (0 : Nat) < 1 := Nat.one_pos
    exact Nat.lt_of_lt_of_le this (le_max_left _ _)
  · unfold cursorInv GeminiAPIManager.get_next_key
    by_cases he : m.available_keys.isEmpty
    · rw [if_pos he]
      by_cases ha : m.api_keys.isEmpty
      · rw [if_pos ha]
        exact h
      · rw [if_neg ha]
        have hne : m.api_keys ≠ [] := fun hx => ha (by simp [hx])
        have hlen : 0 < m.api_keys.length := List.length_pos.mpr hne
        exact Nat.lt_of_lt_of_le (Nat.mod_lt _ hlen) (le_max_right _ _)
    · rw [if_neg he]
      have hane : m.available_keys ≠ [] := fun hx => he (by simp [hx])
      have halen : 0 < m.available_keys.length := List.length_pos.mpr hane
      have hle : m.available_keys.length ≤ m.api_keys.length :=
        List.length_filter_le _ _
      exact Nat.lt_of_lt_of_le (Nat.lt_of_lt_of_le (Nat.mod_lt _ halen) hle)
        (le_max_right _ _)
  · unfold cursorInv
    rw [mark_key_failed_eq]
    by_cases hc : m.max_retries ≤ m.retry_count key + 1
    · rw [if_pos hc]
      exact h
    · rw [if_neg hc]
      exact h

/-- Witness for the amended C6 at a concrete pool. -/
theorem cursor_bound_invariant_witness :
    cursorInv (mkManager ["c"]) ∧
    cursorInv ((mkManager ["a", "b"]).get_next_key).2 ∧
    cursorInv ((mkManager ["a", "b"]).mark_key_failed "a") :=
  cursor_bound_invariant ["c"] (mkManager ["a", "b"]) "a"
    (by unfold cursorInv; decide)

/-- Counterexample to C9: in the pool over the duplicated list
`["a", "a"]`, three `mark_key_failed "a"` calls leave a single shared
counter at 3 and remove BOTH occurrences from the available rotation (the
claim predicts a per-slot counter and one occurrence still available). -/
theorem duplicate_slots_cex :
    duplicatePool.api_keys.length = 2 ∧
    duplicatePool.retry_count "a" = 3 ∧
    duplicatePool.available_keys = [] := by
  decide

/-- Helper: filtering with a predicate false at `a` leaves no occurrence of
`a`. -/
theorem contains_filter_eq_false {p : String → Bool} {l : List String}
    {a : String} (hp : p a = false) : (l.filter p).contains a = false := by
  by_contra hx
  have hx' : (l.filter p).contains a = true := by
    cases hcc : (l.filter p).contains a
    · exact absurd hcc hx
    · rfl
  have hmem := List.elem_iff.mp hx'
  have := (List.mem_filter.mp hmem).2
  rw [hp] at this
  cases this

/-- C9 amended: pool entries are tracked by credential value, not by slot.
`mark_key_failed` updates the single counter shared by all occurrences of
the value, and once the value is quarantined no occurrence of it remains in
the available rotation. -/
theorem duplicate_values_share_state (m : GeminiAPIManager) (key : String)
    (h : m.max_retries ≤ m.retry_count key + 1) :
    (m.mark_key_failed key).retry_count key = m.retry_count key + 1 ∧
    (m.mark_key_failed key).failed_keys.contains key = true ∧
    (m.mark_key_failed key).available_keys.contains key = false := by
  rw [mark_key_failed_eq, if_pos h]
  refine ⟨by simp, ?_, ?_⟩
  · exact List.elem_iff.mpr (List.mem_insert_self key m.failed_keys)
  · unfold GeminiAPIManager.available_keys
    apply contains_filter_eq_false
    simp only [Bool.not_eq_false']
    exact List.elem_iff.mpr (List.mem_insert_self key m.failed_keys)

/-- Witness for the amended C9 on the duplicated pool, at the failure call
that crosses the threshold. -/
theorem duplicate_values_share_state_witness :
    ((((mkManager ["a", "a"]).mark_key_failed "a").mark_key_failed
          "a").mark_key_failed "a").retry_count "a" =
        (((mkManager ["a", "a"]).mark_key_failed "a").mark_key_failed
          "a").retry_count "a" + 1 ∧
    ((((mkManager ["a", "a"]).mark_key_failed "a").mark_key_failed
          "a").mark_key_failed "a").failed_keys.contains "a" = true ∧
    ((((mkManager ["a", "a"]).mark_key_failed "a").mark_key_failed
          "a").mark_key_failed "a").available_keys.contains "a" = false :=
  duplicate_values_share_state
    (((mkManager ["a", "a"]).mark_key_failed "a").mark_key_failed "a") "a"
    (by decide)

/-- C10: constructing the pool over an empty credential list fails with the
`ValueError` message, a successfully constructed pool always holds at least
one credential, and the pipeline entry point with an empty credential list
fails during setup (the manager constructor), before any stage runs. -/
theorem empty_credentials_rejected (L : List String) (p : GeminiAPIManager)
    (gen : List Char → Option (List Char)) (date raw : List Char)
    (h : initManager L = Except.ok p) :
    initManager ([] : List String) =
      Except.error "Pelo menos uma chave API deve ser fornecida" ∧
    p.api_keys ≠ [] ∧
    process_content_with_enhanced_agents gen date raw [] =
      Except.error "Pelo menos uma chave API deve ser fornecida" := by
  refine ⟨rfl, ?_, rfl⟩
  unfold initManager at h
  by_cases he : L.isEmpty
  · rw [if_pos he] at h
    cases h
  · rw [if_neg he] at h
    have hp : p = mkManager L := by
      cases h
      rfl
    subst hp
    intro hx
    exact he (by simp [mkManager] at hx ⊢; exact hx)

/-- Witness for C10 at the one-key list. -/
theorem empty_credentials_rejected_witness :
    initManager ([] : List String) =
      Except.error "Pelo menos uma chave API deve ser fornecida" ∧
    (mkManager ["a"]).api_keys ≠ [] ∧
    process_content_with_enhanced_agents allFail ("d".toList) ("x".toList) [] =
      Except.error "Pelo menos uma chave API deve ser fornecida" :=
  empty_credentials_rejected ["a"] (mkManager ["a"]) allFail ("d".toList)
    ("x".toList) rfl

/-- Rotation formula: with nothing quarantined and the cursor at `c < k`,
`n` lookups return the keys at positions `(c + t) % k` for `t < n` and
leave the cursor at `(c + n) % k`. -/
theorem nextSeq_rotation (m : GeminiAPIManager) (hf : m.failed_keys = [])
    (hne : m.api_keys ≠ []) (n : Nat) :
    ∀ c, c < m.api_keys.length →
    nextSeq { m with current_key_index := c } n =
      ((List.range n).map
          (fun t => m.api_keys.getD ((c + t) % m.api_keys.length) ""),
        { m with current_key_index := (c + n) % m.api_keys.length }) := by
  induction n with
  | zero =>
    intro c hc
    rw [Nat.add_zero, Nat.mod_eq_of_lt hc]
    rfl
  | succ n ih =>
    intro c hc
    have hlen : 0 < m.api_keys.length := List.length_pos.mpr hne
    have hstep := get_next_key_no_failed { m with current_key_index := c } hf hne
    rw [Nat.mod_eq_of_lt hc] at hstep
    have hc1 : (c + 1) % m.api_keys.length < m.api_keys.length := Nat.mod_lt _ hlen
    have ihc := ih ((c + 1) % m.api_keys.length) hc1
    show (match ({ m with current_key_index := c } : GeminiAPIManager).get_next_key with
      | (some key, m1) =>
        let p := nextSeq m1 n
        (key :: p.1, p.2)
      | (none, m1) => ([], m1)) = _
    rw [hstep]
    simp only []
    rw [ihc]
    simp only [Prod.mk.injEq]
    constructor
    · rw [List.range_succ_eq_map, List.map_cons, List.map_map]
      congr 1
      · rw [Nat.add_zero, Nat.mod_eq_of_lt hc]
      · apply List.map_congr_left
        intro t _
        simp only [Function.comp_apply]
        rw [Nat.mod_add_mod]
        have harith : c + 1 + t = c + Nat.succ t := by omega
        rw [harith]
    · have harith : c + 1 + n = c + (n + 1) := by omega
      rw [Nat.mod_add_mod, harith]

/-- Mapping positional lookup over `range (length L)` rebuilds `L`. -/
theorem map_getD_range (L : List String) :
    (List.range L.length).map (fun t => L.getD t "") = L := by
  apply List.ext_getElem
  · simp
  · intro i h1 h2
    simp only [List.getElem_map, List.getElem_range]
    exact List.getD_eq_getElem L "" h2

/-- C3: a pool whose keys never fail rotates fairly: the first `k` lookups
return the configured list itself (each credential exactly once, in order),
the pool returns to its initial state, and the next `k` lookups repeat the
same sequence. -/
theorem rotation_fairness (L : List String) (h : L ≠ []) :
    (nextSeq (mkManager L) L.length).1 = L ∧
    (nextSeq (mkManager L) L.length).2 = mkManager L ∧
    (nextSeq (nextSeq (mkManager L) L.length).2 L.length).1 = L := by
  have hlen : 0 < L.length := List.length_pos.mpr h
  have hrot := nextSeq_rotation (mkManager L) rfl h L.length 0 hlen
  have hmk : ({ mkManager L with current_key_index := 0 } : GeminiAPIManager) =
      mkManager L := rfl
  rw [hmk] at hrot
  have hfst : (nextSeq (mkManager L) L.length).1 = L := by
    rw [hrot]
    simp only [Nat.zero_add]
    conv_rhs => rw [(map_getD_range L).symm]
    apply List.map_congr_left
    intro t ht
    have htl : t < (mkManager L).api_keys.length := List.mem_range.mp ht
    rw [Nat.mod_eq_of_lt htl]
    rfl
  have hsnd : (nextSeq (mkManager L) L.length).2 = mkManager L := by
    rw [hrot]
    have hz : (0 + L.length) % (mkManager L).api_keys.length = 0 := by
      simp [mkManager]
    show ({ mkManager L with
      current_key_index := (0 + L.length) % (mkManager L).api_keys.length } :
        GeminiAPIManager) = mkManager L
    rw [hz]
    rfl
  exact ⟨hfst, hsnd, by rw [hsnd, hfst]⟩

/-- Witness for C3 at a three-key pool. -/
theorem rotation_fairness_witness :
    (nextSeq (mkManager ["a", "b", "c"]) 3).1 = ["a", "b", "c"] ∧
    (nextSeq (mkManager ["a", "b", "c"]) 3).2 = mkManager ["a", "b", "c"] ∧
    (nextSeq (nextSeq (mkManager ["a", "b", "c"]) 3).2 3).1 = ["a", "b", "c"] := by
  have h := rotation_fairness ["a", "b", "c"] (by decide)
  simpa using h

/-- The freshly constructed pool is the `i = 0` instance of `c2State`. -/
theorem mkManager_eq_c2State (L : List String) : mkManager L = c2State L 0 := by
  unfold mkManager c2State
  ext
  · rfl
  · exact (Nat.zero_mod _).symm
  · rfl
  · rfl
  · rfl

/-- In a duplicate-free list, the element at `i` does not occur among the
first `i` elements. -/
theorem getElem_not_mem_take (L : List String) (hnd : L.Nodup) (i : Nat)
    (hi : i < L.length) : L[i] ∉ L.take i := by
  intro hmem
  rw [List.mem_take_iff_getElem] at hmem
  obtain ⟨j, hj, hje⟩ := hmem
  have hji : j = i := (List.Nodup.getElem_inj_iff hnd).mp hje
  omega

/-- Marking the key just served by `c2State L i` records its first failure
and (below the threshold) quarantines nothing: the pool moves to
`c2State L (i + 1)`. -/
theorem mark_step_c2State (L : List String) (hnd : L.Nodup) (i : Nat)
    (hi : i < L.length) :
    GeminiAPIManager.mark_key_failed
        { c2State L i with current_key_index := (i + 1) % L.length }
        (L.getD i "") = c2State L (i + 1) := by
  have hkey : L.getD i "" = L[i] := List.getD_eq_getElem L "" hi
  have hnotmem : L[i] ∉ L.take i := getElem_not_mem_take L hnd i hi
  have hcount0 : (L.take i).contains (L.getD i "") = false := by
    rw [hkey]
    cases hcc : (L.take i).contains L[i]
    · rfl
    · exact absurd (List.elem_iff.mp hcc) hnotmem
  rw [mark_key_failed_eq]
  have hcond : ¬(({ c2State L i with
        current_key_index := (i + 1) % L.length } : GeminiAPIManager).max_retries ≤
      ({ c2State L i with
        current_key_index := (i + 1) % L.length } : GeminiAPIManager).retry_count
        (L.getD i "") + 1) := by
    show ¬(3 ≤ (if (L.take i).contains (L.getD i "") then 1 else 0) + 1)
    rw [hcount0]
    decide
  rw [if_neg hcond]
  refine GeminiAPIManager.ext rfl rfl rfl ?_ rfl
  funext k
  show (if k = L.getD i "" then
      (if (L.take i).contains (L.getD i "") then 1 else 0) + 1
    else if (L.take i).contains k then 1 else 0) =
    if (L.take (i + 1)).contains k then 1 else 0
  rw [hcount0]
  have htake : L.take (i + 1) = L.take i ++ [L[i]] :=
    (List.take_concat_get' L i hi).symm
  by_cases hk : k = L.getD i ""
  · rw [if_pos hk, htake]
    have hcin : (L.take i ++ [L[i]]).contains k = true := by
      apply List.elem_iff.mpr
      rw [hk, hkey]
      exact List.mem_append_right _ (List.mem_singleton_self _)
    rw [hcin]
    decide
  · rw [if_neg hk, htake]
    have hsplit : (L.take i ++ [L[i]]).contains k = (L.take i).contains k := by
      cases hcc : (L.take i).contains k
      · cases hcc2 : (L.take i ++ [L[i]]).contains k
        · rfl
        · have hmm := List.elem_iff.mp hcc2
          rcases List.mem_append.mp hmm with hx | hx
          · have hxc : (L.take i).contains k = true := List.elem_iff.mpr hx
            rw [hxc] at hcc
            cases hcc
          · rw [List.mem_singleton.mp hx, ← hkey] at hk
            exact absurd rfl hk
      · exact List.elem_iff.mpr
          (List.mem_append_left _ (List.elem_iff.mp hcc))
    rw [hsplit]

/-- Loop invariant for the all-failing fallback: starting after `i`
attempts, the remaining `L.length - i` iterations each obtain a key, fail,
and record the failure, ending in `c2State L L.length`. -/
theorem gen_loop_all_fail (L : List String) (hnd : L.Nodup) (hne : L ≠ [])
    (hemp : "" ∉ L) (j i : Nat) (hij : i + j = L.length) :
    gen_loop (fun _ _ => none) j i (c2State L i) =
      (none, L.length, c2State L L.length) := by
  induction j generalizing i with
  | zero =>
    rw [Nat.add_zero] at hij
    subst hij
    rfl
  | succ j ih =>
    have hi : i < L.length := by omega
    have hcur : (c2State L i).current_key_index = i := by
      show i % L.length = i
      exact Nat.mod_eq_of_lt hi
    have hstep2 : (c2State L i).get_next_key =
        (some (L.getD i ""),
          { c2State L i with current_key_index := (i + 1) % L.length }) := by
      have h0 := get_next_key_no_failed (c2State L i) rfl hne
      rw [hcur] at h0
      have hmod : i % (c2State L i).api_keys.length = i := Nat.mod_eq_of_lt hi
      rw [hmod] at h0
      exact h0
    have hkne : ¬(L.getD i "" = "") := by
      rw [List.getD_eq_getElem L "" hi]
      intro hx
      exact hemp (hx ▸ List.getElem_mem hi)
    simp only [gen_loop]
    rw [hstep2]
    simp only [if_neg hkne]
    rw [mark_step_c2State L hnd i hi]
    exact ih (i + 1) (by omega)

/-- C2 amended: over `k ≥ 1` distinct credentials, none of them the empty
string, the fallback with an always-failing remote call and
`max_attempts = k` returns the terminal `none` after exactly `k` performed
attempts, and afterwards every configured credential's failure counter is
exactly 1. -/
theorem fallback_all_fail_exhausts (L : List String) (hnd : L.Nodup)
    (hne : L ≠ []) (hemp : "" ∉ L) :
    (generate_content_with_fallback (mkManager L) (fun _ _ => none) L.length).1 =
      none ∧
    (generate_content_with_fallback (mkManager L) (fun _ _ => none) L.length).2.1 =
      L.length ∧
    ∀ key ∈ L,
      (generate_content_with_fallback (mkManager L)
        (fun _ _ => none) L.length).2.2.retry_count key = 1 := by
  have hrun : generate_content_with_fallback (mkManager L) (fun _ _ => none)
      L.length = (none, L.length, c2State L L.length) := by
    unfold generate_content_with_fallback
    rw [mkManager_eq_c2State]
    exact gen_loop_all_fail L hnd hne hemp L.length 0 (by omega)
  rw [hrun]
  refine ⟨rfl, rfl, ?_⟩
  intro key hkey
  show (if (L.take L.length).contains key then 1 else 0) = 1
  rw [List.take_length]
  have hc : L.contains key = true := List.elem_iff.mpr hkey
  rw [hc]
  rfl

/-- Witness for the amended C2 at two distinct keys. -/
theorem fallback_all_fail_exhausts_witness :
    (generate_content_with_fallback (mkManager ["a", "b"])
      (fun _ _ => none) (["a", "b"] : List String).length).1 = none ∧
    (generate_content_with_fallback (mkManager ["a", "b"])
      (fun _ _ => none) (["a", "b"] : List String).length).2.1 =
        (["a", "b"] : List String).length ∧
    ∀ key ∈ (["a", "b"] : List String),
      (generate_content_with_fallback (mkManager ["a", "b"])
        (fun _ _ => none) (["a", "b"] : List String).length).2.2.retry_count key = 1 :=
  fallback_all_fail_exhausts ["a", "b"] (by decide) (by decide) (by decide)

/-- Counterexample to C2 as stated: with the single credential `""` (a pool
of `k = 1` credentials), Python's falsy test `if not api_key` breaks out of
the loop immediately, so the call returns `none` after 0 attempts, not 1,
and the credential's counter stays 0, not 1. -/
theorem fallback_empty_credential_cex :
    (generate_content_with_fallback (mkManager [""]) (fun _ _ => none) 1).1 =
      none ∧
    (generate_content_with_fallback (mkManager [""]) (fun _ _ => none) 1).2.1 = 0 ∧
    (generate_content_with_fallback (mkManager [""])
      (fun _ _ => none) 1).2.2.retry_count "" = 0 ∧
    ¬((generate_content_with_fallback (mkManager [""])
      (fun _ _ => none) 1).2.1 = 1) := by
  refine ⟨rfl, rfl, rfl, by decide⟩

/-! Helper lemmas for the text side. -/

/-- When a pattern occurs nowhere in `s`, it is anchored at no suffix. -/
theorem ciContains_false_drop (pat : List Char) :
    ∀ s : List Char, ciContains pat s = false →
      ∀ n, ciPrefix pat (s.drop n) = false := by
  intro s
  induction s with
  | nil =>
    intro h n
    rw [List.drop_nil]
    exact h
  | cons c rest ih =>
    intro h n
    have hsplit := Bool.or_eq_false_iff.mp (by
      have h2 := h
      rw [ciContains] at h2
      exact h2)
    cases n with
    | zero => exact hsplit.1
    | succ n =>
      show ciPrefix pat (rest.drop n) = false
      exact ih hsplit.2 n

/-- A scan whose matcher fires on no suffix returns the text unchanged. -/
theorem subScanAux_nomatch (tryMatch : List Char → Option Nat)
    (keep : List Char → Bool) :
    ∀ fuel s, (∀ n, tryMatch (s.drop n) = none) →
      subScanAux tryMatch keep fuel s = s := by
  intro fuel
  induction fuel with
  | zero =>
    intro s _
    cases s with
    | nil => rfl
    | cons c rest => rfl
  | succ fuel ih =>
    intro s h
    cases s with
    | nil => rfl
    | cons c rest =>
      have h0 : tryMatch (c :: rest) = none := h 0
      simp only [subScanAux, h0]
      rw [ih rest (fun n => h (n + 1))]

theorem subScan_nomatch (tryMatch : List Char → Option Nat)
    (keep : List Char → Bool) (s : List Char)
    (h : ∀ n, tryMatch (s.drop n) = none) : subScan tryMatch keep s = s :=
  subScanAux_nomatch tryMatch keep s.length s h

/-- An extraction whose matcher fires on no suffix returns the text
unchanged and collects nothing. -/
theorem scanExtractAux_nomatch (tryMatch : List Char → Option Nat) :
    ∀ fuel s, (∀ n, tryMatch (s.drop n) = none) →
      scanExtractAux tryMatch fuel s = (s, []) := by
  intro fuel
  induction fuel with
  | zero =>
    intro s _
    cases s with
    | nil => rfl
    | cons c rest => rfl
  | succ fuel ih =>
    intro s h
    cases s with
    | nil => rfl
    | cons c rest =>
      have h0 : tryMatch (c :: rest) = none := h 0
      simp only [scanExtractAux, h0]
      rw [ih rest (fun n => h (n + 1))]

theorem scanExtract_nomatch (tryMatch : List Char → Option Nat) (s : List Char)
    (h : ∀ n, tryMatch (s.drop n) = none) : scanExtract tryMatch s = (s, []) :=
  scanExtractAux_nomatch tryMatch s.length s h

theorem matchBlock_none (lit t : List Char) (h : ciPrefix lit t = false) :
    matchBlock lit t = none := by
  simp only [matchBlock]
  rw [h]
  rfl

theorem matchPagina_none (t : List Char)
    (h : ciPrefix ("Página ".toList) t = false) : matchPagina t = none := by
  simp only [matchPagina]
  rw [h]
  rfl

theorem matchDireitos_none (t : List Char)
    (h : ciPrefix ("Direitos Autorais © ".toList) t = false) :
    matchDireitos t = none := by
  simp only [matchDireitos]
  rw [h]
  rfl

theorem matchBizu_none (t : List Char)
    (h : ciPrefix ("bizu".toList) t = false) : matchBizu t = none := by
  simp only [matchBizu]
  rw [h]
  rfl

theorem matchQuestaoHead_none (t : List Char)
    (h : ciPrefix ("Questão".toList) t = false) : matchQuestaoHead t = none := by
  simp only [matchQuestaoHead]
  rw [h]
  rfl

theorem matchQuestao_none (t : List Char)
    (h : ciPrefix ("Questão".toList) t = false) : matchQuestao t = none := by
  unfold matchQuestao
  rw [matchQuestaoHead_none t h]

theorem subScan_block_id (lit s : List Char) (h : ciContains lit s = false) :
    subScan (matchBlock lit) keepExamContent s = s :=
  subScan_nomatch _ _ s
    (fun n => matchBlock_none lit _ (ciContains_false_drop lit s h n))

/-- Counterexample to C7 as stated: `"Página 1"` contains no tip and no
review-question marker, yet the extractor's boilerplate removal deletes it
entirely, so the main content is not the trimmed input. -/
theorem extractor_trim_identity_cex :
    ciContains ("bizu".toList) ("Página 1".toList) = false ∧
    ciContains ("Questão".toList) ("Página 1".toList) = false ∧
    (transcriberExtract allFail ("Página 1".toList)).bizus = [] ∧
    (transcriberExtract allFail ("Página 1".toList)).questions = [] ∧
    ¬((transcriberExtract allFail ("Página 1".toList)).main_content =
        pyStrip ("Página 1".toList)) := by
  decide

/-- C7 amended: on input in which no boilerplate-removal pattern literal,
no tip marker and no question marker occurs, and for which the AI
tip-enrichment step contributes nothing (the input is within line 55's
1000-character bound, or the enrichment remote call fails), the extractor
returns the trimmed input with empty tip and question lists. -/
theorem extractor_trim_identity (gen : List Char → Option (List Char))
    (s : List Char)
    (h1 : ciContains ("Apresentação do Curso".toList) s = false)
    (h2 : ciContains ("Sumário".toList) s = false)
    (h3 : ciContains ("Índice".toList) s = false)
    (h4 : ciContains ("Conteúdo Introdutório e Administrativo".toList) s = false)
    (h5 : ciContains ("Material Publicitário".toList) s = false)
    (h6 : ciContains ("Metadados de Origem".toList) s = false)
    (h7 : ciContains ("Página ".toList) s = false)
    (h8 : ciContains ("Direitos Autorais © ".toList) s = false)
    (h9 : ciContains ("Seções de Exercícios".toList) s = false)
    (h10 : ciContains ("Exercícios Não Comentados/Resolvidos".toList) s = false)
    (hbizu : ciContains ("bizu".toList) s = false)
    (hq : ciContains ("Questão".toList) s = false)
    (hgen : s.length ≤ 1000 ∨
      gen ("Identifique dicas, macetes ou bizus importantes no seguinte texto. Retorne apenas as dicas encontradas, uma por linha: ".toList
        ++ s) = none) :
    transcriberExtract gen s =
      { main_content := pyStrip s, bizus := [], questions := [] } := by
  have hrb : removeBoilerplate s = s := by
    unfold removeBoilerplate patternsToRemove
    simp only [List.foldl_cons, List.foldl_nil]
    rw [subScan_block_id _ s h1, subScan_block_id _ s h2, subScan_block_id _ s h3,
      subScan_block_id _ s h4, subScan_block_id _ s h5, subScan_block_id _ s h6]
    rw [subScan_nomatch _ _ s
      (fun n => matchPagina_none _ (ciContains_false_drop _ s h7 n))]
    rw [subScan_nomatch _ _ s
      (fun n => matchDireitos_none _ (ciContains_false_drop _ s h8 n))]
    rw [subScan_block_id _ s h9, subScan_block_id _ s h10]
  have hbz : scanExtract matchBizu s = (s, []) :=
    scanExtract_nomatch _ s
      (fun n => matchBizu_none _ (ciContains_false_drop _ s hbizu n))
  have hqx : scanExtract matchQuestao s = (s, []) :=
    scanExtract_nomatch _ s
      (fun n => matchQuestao_none _ (ciContains_false_drop _ s hq n))
  unfold transcriberExtract
  simp only [hrb, hbz, hqx, List.map_nil]
  rcases hgen with hlen | hfail
  · rw [if_neg (by omega)]
  · by_cases hlen : 1000 < s.length
    · rw [if_pos hlen, hfail]
    · rw [if_neg hlen]

/-- Witness for the amended C7 on a marker-free input with surrounding
whitespace. -/
theorem extractor_trim_identity_witness :
    transcriberExtract allFail ("  olá mundo  ".toList) =
      { main_content := pyStrip ("  olá mundo  ".toList), bizus := [],
        questions := [] } :=
  extractor_trim_identity allFail ("  olá mundo  ".toList) (by decide)
    (by decide) (by decide) (by decide) (by decide) (by decide) (by decide)
    (by decide) (by decide) (by decide) (by decide) (by decide)
    (Or.inl (by decide))

theorem csPrefix_append (p : List Char) (b : List Char) :
    ∀ a, csPrefix p a = true → csPrefix p (a ++ b) = true := by
  induction p with
  | nil =>
    intro a _
    rfl
  | cons x ps ih =>
    intro a h
    cases a with
    | nil => cases h
    | cons y as =>
      have hp := Bool.and_eq_true_iff.mp h
      show ((y == x) && csPrefix ps (as ++ b)) = true
      rw [hp.1, ih as hp.2]
      rfl

theorem csPrefix_self_append (p b : List Char) : csPrefix p (p ++ b) = true := by
  induction p with
  | nil => rfl
  | cons x ps ih =>
    show ((x == x) && csPrefix ps (ps ++ b)) = true
    rw [beq_self_eq_true, ih]
    rfl

theorem csContains_of_csPrefix (p s : List Char) (h : csPrefix p s = true) :
    csContains p s = true := by
  cases s with
  | nil => exact h
  | cons c rest =>
    show (csPrefix p (c :: rest) || csContains p rest) = true
    rw [h]
    rfl

theorem csContains_append_left (p s : List Char) (h : csContains p s = true) :
    ∀ a, csContains p (a ++ s) = true := by
  intro a
  induction a with
  | nil => exact h
  | cons x a' ih =>
    show (csPrefix p (x :: (a' ++ s)) || csContains p (a' ++ s)) = true
    rw [ih]
    exact Bool.or_true _

/-- With a failing final-review call, the formatter only ever appends the
fallback tag block (or nothing) to an already-headered document — the
metadata header is not injected again. -/
theorem formatter_headered_step (date : List Char) (d : LatexData)
    (h : csPrefix ("---".toList) d.content = true) :
    ∃ t, obsidianFormatterProcess allFail date d = d.content ++ t ∧
      (t = [] ∨ t = fallbackTagBlock) := by
  unfold obsidianFormatterProcess allFail
  simp only []
  by_cases hc : d.latex_processed ∧
      csContains ("tags:".toList) (d.content.map pyLower) = false
  · rw [if_pos hc, if_pos (csPrefix_append _ _ _ h)]
    exact ⟨fallbackTagBlock, rfl, Or.inr rfl⟩
  · rw [if_neg hc, if_pos h]
    exact ⟨[], (List.append_nil _).symm, Or.inl rfl⟩

/-- C8: running the final formatter (with the remote revision failing, so
the local path executes) twice on a document that already starts with a
metadata header block never prepends a second header: each run returns the
input with at most the fallback tag block appended at the end. -/
theorem header_injection_idempotent (c : List Char) (flag : Bool)
    (date : List Char) (h : csPrefix ("---".toList) c = true) :
    ∃ t1 t2,
      obsidianFormatterProcess allFail date
        { content := c, latex_processed := flag } = c ++ t1 ∧
      obsidianFormatterProcess allFail date
        { content := c ++ t1, latex_processed := flag } = (c ++ t1) ++ t2 ∧
      (t1 = [] ∨ t1 = fallbackTagBlock) ∧ (t2 = [] ∨ t2 = fallbackTagBlock) := by
  obtain ⟨t1, he1, ho1⟩ :=
    formatter_headered_step date { content := c, latex_processed := flag } h
  obtain ⟨t2, he2, ho2⟩ :=
    formatter_headered_step date { content := c ++ t1, latex_processed := flag }
      (csPrefix_append _ t1 c h)
  exact ⟨t1, t2, he1, he2, ho1, ho2⟩

/-- Witness for C8 on a concrete already-headered document. -/
theorem header_injection_idempotent_witness :
    ∃ t1 t2,
      obsidianFormatterProcess allFail ("2024-01-01".toList)
        { content := "---\ntitulo".toList, latex_processed := true } =
          "---\ntitulo".toList ++ t1 ∧
      obsidianFormatterProcess allFail ("2024-01-01".toList)
        { content := "---\ntitulo".toList ++ t1, latex_processed := true } =
          ("---\ntitulo".toList ++ t1) ++ t2 ∧
      (t1 = [] ∨ t1 = fallbackTagBlock) ∧ (t2 = [] ∨ t2 = fallbackTagBlock) :=
  header_injection_idempotent ("---\ntitulo".toList) true ("2024-01-01".toList)
    (by decide)

theorem csContains_sandwich (p a b : List Char) :
    csContains p (a ++ (p ++ b)) = true :=
  csContains_append_left p (p ++ b)
    (csContains_of_csPrefix p (p ++ b) (csPrefix_self_append p b)) a

theorem csContains_append_end (p a : List Char) :
    csContains p (a ++ p) = true := by
  have h := csContains_sandwich p a []
  rw [List.append_nil] at h
  exact h

theorem csContains_ne_nil (p s : List Char) (hp : p ≠ [])
    (h : csContains p s = true) : s ≠ [] := by
  intro hs
  subst hs
  cases p with
  | nil => exact hp rfl
  | cons x ps => cases h

/-- With the final revision failing and no `tags:` marker in the content,
the formatter appends the fallback tag block; depending on whether the
result already starts with `---`, the metadata header is prepended. -/
theorem formatter_fallback_tags (date C : List Char)
    (ht : csContains ("tags:".toList) (C.map pyLower) = false) :
    obsidianFormatterProcess allFail date
        { content := C, latex_processed := true } = C ++ fallbackTagBlock ∨
    obsidianFormatterProcess allFail date
        { content := C, latex_processed := true } =
      metadataHeader date ++ (C ++ fallbackTagBlock) := by
  unfold obsidianFormatterProcess allFail
  simp only []
  split_ifs with h1 h2
  · exact Or.inl rfl
  · exact Or.inr rfl
  · exact absurd ⟨trivial, ht⟩ h1
  · exact absurd ⟨trivial, ht⟩ h1

/-- Counterexample to C5 as stated: the document `"tags: $"` sets the math
flag, every remote call fails, and the pipeline completes — but the source
(line 275) appends the fallback tag block only when `"tags:"` does not
already occur in the lower-cased content, so the final note carries the
math notice yet no fallback tag block. -/
theorem pipeline_tags_input_cex :
    (structurerProcess allFail
      (transcriberExtract allFail ("tags: $".toList))).has_math = true ∧
    process_content_with_enhanced_agents allFail ("2024-01-01".toList)
        ("tags: $".toList) ["k"] =
      Except.ok (obsidianFormatterProcess allFail ("2024-01-01".toList)
        (latexExpertProcess allFail
          (structurerProcess allFail
            (transcriberExtract allFail ("tags: $".toList))))) ∧
    csContains mathNoticeLine
      (obsidianFormatterProcess allFail ("2024-01-01".toList)
        (latexExpertProcess allFail
          (structurerProcess allFail
            (transcriberExtract allFail ("tags: $".toList))))) = true ∧
    csContains fallbackTagBlock
      (obsidianFormatterProcess allFail ("2024-01-01".toList)
        (latexExpertProcess allFail
          (structurerProcess allFail
            (transcriberExtract allFail ("tags: $".toList))))) = false := by
  refine ⟨by decide, rfl, by decide, by decide⟩

/-- C5 amended: with every remote call failing, the four-stage pipeline on
a document whose extracted main text sets the math flag still returns a
non-empty final note containing the fixed math notice line, and no failure
escapes the pipeline for these optional enrichment steps; the fallback tag
block is additionally present provided the content reaching the final
formatter does not already carry a `tags:` marker (otherwise the source
deliberately skips the block). -/
theorem pipeline_all_fail_math_note (raw date : List Char) (keys : List String)
    (hk : keys.isEmpty = false)
    (hm : (structurerProcess allFail (transcriberExtract allFail raw)).has_math =
      true)
    (ht : csContains ("tags:".toList)
      ((latexExpertProcess allFail
        (structurerProcess allFail (transcriberExtract allFail raw))).content.map
          pyLower) = false) :
    ∃ note,
      process_content_with_enhanced_agents allFail date raw keys =
        Except.ok note ∧
      note ≠ [] ∧
      csContains mathNoticeLine note = true ∧
      csContains fallbackTagBlock note = true := by
  have hlx : latexExpertProcess allFail
      (structurerProcess allFail (transcriberExtract allFail raw)) =
      { content := (structurerProcess allFail
          (transcriberExtract allFail raw)).structured_content ++ mathNoticeLine,
        latex_processed := true } := by
    unfold latexExpertProcess
    rw [hm]
    rfl
  have ht2 : csContains ("tags:".toList)
      (((structurerProcess allFail
        (transcriberExtract allFail raw)).structured_content ++
          mathNoticeLine).map pyLower) = false := by
    rw [hlx] at ht
    exact ht
  have hpipe : process_content_with_enhanced_agents allFail date raw keys =
      Except.ok (obsidianFormatterProcess allFail date
        (latexExpertProcess allFail
          (structurerProcess allFail (transcriberExtract allFail raw)))) := by
    unfold process_content_with_enhanced_agents initManager
    rw [hk]
    rfl
  have hnotice : ∀ tail : List Char,
      csContains mathNoticeLine
        (((structurerProcess allFail
          (transcriberExtract allFail raw)).structured_content ++
            mathNoticeLine) ++ tail) = true := by
    intro tail
    rw [List.append_assoc]
    exact csContains_sandwich _ _ _
  rcases formatter_fallback_tags date
    ((structurerProcess allFail
      (transcriberExtract allFail raw)).structured_content ++ mathNoticeLine)
    ht2 with hf | hf
  · refine ⟨_, by rw [hpipe, hlx, hf], ?_, hnotice fallbackTagBlock,
      csContains_append_end _ _⟩
    exact csContains_ne_nil mathNoticeLine _ (by decide) (hnotice fallbackTagBlock)
  · have hnotice2 : csContains mathNoticeLine
        (metadataHeader date ++
          (((structurerProcess allFail
            (transcriberExtract allFail raw)).structured_content ++
              mathNoticeLine) ++ fallbackTagBlock)) = true :=
      csContains_append_left _ _ (hnotice fallbackTagBlock) _
    refine ⟨_, by rw [hpipe, hlx, hf], ?_, hnotice2, ?_⟩
    · exact csContains_ne_nil mathNoticeLine _ (by decide) hnotice2
    · rw [← List.append_assoc]
      exact csContains_append_end _ _

set_option maxRecDepth 100000 in
/-- Witness for C5: the one-character document `"$"` flags math, every
remote call fails, and the pipeline still produces the degraded note. -/
theorem pipeline_all_fail_math_note_witness :
    ∃ note,
      process_content_with_enhanced_agents allFail ("2024-01-01".toList)
        ("$".toList) ["k"] = Except.ok note ∧
      note ≠ [] ∧
      csContains mathNoticeLine note = true ∧
      csContains fallbackTagBlock note = true :=
  pipeline_all_fail_math_note ("$".toList) ("2024-01-01".toList) ["k"]
    (by decide) (by decide) (by decide)
